import Mathlib

/-!
Shallow embedding of the pagination core of `paps.c` (paragraph
segmentation, line measurement, and the line-flow engine of
`output_pages`), together with theorems checking the specification's
claims against it.

Modelling conventions:
* C `int` values (margins, column sizes, Pango extents) become `Int`;
  Pango units are points scaled by `PANGO_SCALE = 1024`.
* C `gdouble` values (`lpi`, `cpi`, scale factors, separator
  coordinates) become `ℚ`; a C cast `(int)` of a non-negative double is
  `Int.floor`, and a `double → gsize` conversion is `Int.floor` followed
  by `Int.toNat`.
* The input text is a list of abstract codepoints `Ch`: newline,
  form feed, an invalid sequence, or a printable codepoint carrying its
  `wcwidth` advance (`wcwidth` may be negative for unprintable
  codepoints).  `chWidth` of an invalid sequence is modelled as `-1`.
* The shaping collaborator (Pango) is external: a measured paragraph
  carries the list of per-line (ink, logical) extents that
  `pango_layout_get_line` / `pango_layout_line_get_extents` would
  return.
* The paragraph scanner of `split_text_into_paragraphs` is written with
  explicit fuel so that it is a structural recursion the kernel can
  evaluate; `none` marks the runs on which the C loop does not make
  progress (the re-scan position fails to advance, an out-of-bounds
  read) or the fuel is exhausted.  All general theorems are stated with
  explicit fuel and do not depend on the fuel bound chosen here.
-/

/-- Pango's fixed-point scale: 1024 units per point. -/
def PANGO_SCALE : Int := 1024

/-- An abstract input codepoint, as classified by the scanner loop of
`split_text_into_paragraphs`: newline, form feed, an invalid UTF-8
sequence (`g_utf8_get_char` returned `(gunichar)-1`), or a printable
codepoint carrying the advance width that `wcwidth` reports for it. -/
inductive Ch where
  | nl
  | ff
  | invalid
  | pr (w : Int)
deriving DecidableEq, Repr

/-- `wcwidth` of a codepoint in our model.  For an invalid sequence the
C code would feed garbage to `wcwidth`; we model that as `-1`
(unprintable), which the accumulation loop skips. -/
def chWidth : Ch → Int
  | Ch.pr w => w
  | _ => -1

/-- A paragraph as emitted by `split_text_into_paragraphs`: the text
span between two boundaries and the `formfeed` flag (`1` iff the
character deciding the boundary was `\f`). -/
structure Para where
  text : List Ch
  formfeed : Bool
deriving DecidableEq, Repr

/-- Text direction, mirroring `PangoDirection` as used by the source
(only LTR and RTL occur). -/
inductive PangoDirection where
  | ltr
  | rtl
deriving DecidableEq, Repr

/-- The layout configuration, mirroring `page_layout_t`.  Fields that
only feed the option-parsing / CUPS glue (fonts, duplex flags, output
format) are omitted; `scale_x` is omitted because the modelled
functions only read and write `scale_y`. -/
structure page_layout_t where
  column_width : Int
  column_height : Int
  num_columns : Nat
  gutter_width : Int
  top_margin : Int
  bottom_margin : Int
  left_margin : Int
  right_margin : Int
  page_height : ℚ
  header_sep : Int
  header_height : Int
  footer_height : Int
  scale_y : ℚ
  do_separation_line : Bool
  do_wordwrap : Bool
  do_use_markup : Bool
  do_stretch_chars : Bool
  pango_dir : PangoDirection
  lpi : ℚ
  cpi : ℚ
  cups_mode : Bool
deriving DecidableEq, Repr

/-- `col = page_layout->column_width / 72.0 * page_layout->cpi` in
`split_text_into_paragraphs`: the number of fixed-pitch character cells
that fit in one column at `cpi` characters per inch (a `double`
truncated into a `gsize`). -/
def cpiBudget (pl : page_layout_t) : Nat :=
  (Int.floor ((pl.column_width : ℚ) / 72 * pl.cpi)).toNat

/-- The cumulative-width loop of the CPI truncation in
`split_text_into_paragraphs`: starting from accumulated width `ww`,
walk the `wcwidth` values, add each non-negative width, and stop as
soon as the accumulated width exceeds `col`.  Returns the number of
characters copied into `wnewtext` (the C loop's final `i`). -/
def truncGo (col : Nat) : Nat → List Int → Nat
  | _, [] => 0
  | ww, w :: ws =>
    let ww' := if 0 ≤ w then ww + w.toNat else ww
    if col < ww' then 0 else truncGo col ww' ws + 1

/-- The number of characters the CPI truncation keeps from a paragraph
(`wwidth` starts at 0). -/
def truncCount (col : Nat) (ws : List Int) : Nat := truncGo col 0 ws

/-- The plain-mode scanning loop of `split_text_into_paragraphs`.
State: `acc` is the text between `last_para` and `p`, `input` is the
text from `p` on.  `cups` is `page_layout->cups_mode`; `cpiWrap` is
`page_layout->cpi > 0.0L && page_layout->do_wordwrap`; `col` is the
CPI cell budget.  A boundary (`\n`, `\f`, or an invalid sequence with
`wc` forced to 0) emits the accumulated paragraph; when CPI rewrap is
active and the character count exceeds the budget the paragraph is
truncated to `truncCount` characters, `wc` is re-read from the last
kept character, and the scan resumes at the truncation point.  An
invalid sequence halts the scan after the boundary (`if (!wc) break`)
unless `cups_mode` skips it or the CPI truncation overwrote `wc`.
`none` models the runs where the C loop stops making progress: a CPI
truncation that keeps zero characters re-reads the character before
the paragraph start (out of bounds) and re-enters the same state. -/
def scanParas (cups cpiWrap : Bool) (col : Nat) :
    Nat → List Ch → List Ch → Option (List Para)
  | 0, _, _ => none
  | _ + 1, _, [] => some []
  | fuel + 1, acc, c :: rest =>
    match c with
    | Ch.pr w => scanParas cups cpiWrap col fuel (acc ++ [Ch.pr w]) rest
    | b =>
      if b = Ch.invalid && cups then
        scanParas cups cpiWrap col fuel (acc ++ [b]) rest
      else if cpiWrap && decide (col < acc.length) then
        let i := truncCount col (acc.map chWidth)
        if i = 0 then none
        else
          (scanParas cups cpiWrap col fuel [] (acc.drop i ++ b :: rest)).map
            (fun r => ⟨acc.take i, decide (acc.get? (i - 1) = some Ch.ff)⟩ :: r)
      else if b = Ch.invalid then some [⟨acc, false⟩]
      else
        (scanParas cups cpiWrap col fuel [] rest).map
          (fun r => ⟨acc, decide (b = Ch.ff)⟩ :: r)

/-- `split_text_into_paragraphs`, restricted to the data the claims
are about.  In markup mode the whole buffer is one paragraph (whose
`formfeed` field the C code never initialises; modelled as `false`).
In plain mode the scanner runs with linear fuel, which covers every
input the claims exercise. -/
def split_text_into_paragraphs (pl : page_layout_t) (text : List Ch) :
    Option (List Para) :=
  if pl.do_use_markup then some [⟨text, false⟩]
  else
    scanParas pl.cups_mode (decide (0 < pl.cpi) && pl.do_wordwrap)
      (cpiBudget pl) (4 * text.length + 8) [] text

/-- `read_file`, after decoding: the concatenated input buffer, with a
newline appended when the final character is not already a newline
(the `inbuf->str[inbuf->len-1] != '\n'` check; for an empty buffer
that check reads out of bounds, so the model is only meaningful for
non-empty input). -/
def read_file (content : List Ch) : List Ch :=
  if content.getLast? = some Ch.nl then content else content ++ [Ch.nl]

/-- A Pango rectangle as used by the source: only `width` and `height`
of the logical/ink extents are ever read, so the `x`/`y` fields are
omitted.  Units are Pango units (points times `PANGO_SCALE`). -/
structure PangoRectangle where
  width : Int
  height : Int
deriving DecidableEq, Repr

/-- A paragraph together with the measurements of its shaped lines.
The `PangoLayout` the C `Paragraph` owns is external (the shaping
collaborator); it is modelled by the list of per-line (ink, logical)
extent pairs that `pango_layout_get_line` plus
`pango_layout_line_get_extents` would report, in line order. -/
structure MeasuredPara where
  line_extents : List (PangoRectangle × PangoRectangle)
  formfeed : Bool
deriving DecidableEq, Repr

/-- `LineLink`: one measured line of the global line stream.  The
`pango_line` pointer is dropped; its extents are the two rectangles. -/
structure LineLink where
  logical_rect : PangoRectangle
  ink_rect : PangoRectangle
  formfeed : Bool
deriving DecidableEq, Repr

/-- The inner loop of `split_paragraphs_into_lines` for one paragraph:
line `i` gets `formfeed = 1` exactly when the paragraph is form-feed
terminated and `i == para_num_lines - 1`. -/
def linesOfPara (para : MeasuredPara) : List LineLink :=
  para.line_extents.enum.map fun ie =>
    { logical_rect := ie.2.2
      ink_rect := ie.2.1
      formfeed := para.formfeed && decide (ie.1 = para.line_extents.length - 1) }

/-- `split_paragraphs_into_lines`: the concatenated line stream, in
paragraph order then line order (the C code prepends and reverses). -/
def split_paragraphs_into_lines (paras : List MeasuredPara) : List LineLink :=
  paras.flatMap linesOfPara

/-- The running `max_height` computed by `split_paragraphs_into_lines`
(starts at 0, updated with every logical height). -/
def max_line_height (paras : List MeasuredPara) : Int :=
  ((split_paragraphs_into_lines paras).map fun l => l.logical_rect.height).foldl max 0

/-- The `scale_y` field after `split_paragraphs_into_lines` returns:
when `do_stretch_chars` is set and `lpi > 0`, replaced by
`1.0 / lpi * 72.0 * PANGO_SCALE / max_height`; otherwise untouched. -/
def split_scale_y (pl : page_layout_t) (paras : List MeasuredPara) : ℚ :=
  if pl.do_stretch_chars && decide (0 < pl.lpi) then
    1 / pl.lpi * 72 * (PANGO_SCALE : ℚ) / (max_line_height paras : ℚ)
  else pl.scale_y

/-- The mutable pagination state of `output_pages`: `column_idx`,
`column_y_pos` (Pango units within the column), `page_idx`, and
whether the previously placed line (if any) had its `formfeed` flag
set (`prev_line_link && prev_line_link->formfeed`; the initial `NULL`
is modelled as `false`). -/
structure Cursor where
  column_idx : Nat
  column_y_pos : Int
  page_idx : Nat
  prev_formfeed : Bool
deriving DecidableEq, Repr

/-- The cursor at the top of the `while (pango_lines)` loop. -/
def initCursor : Cursor := ⟨0, 0, 1, false⟩

/-- `pango_column_height = page_layout->column_height * PANGO_SCALE`. -/
def pango_column_height (pl : page_layout_t) : Int :=
  pl.column_height * PANGO_SCALE

/-- The break test of `output_pages`: move to the next column when the
line's *natural* logical height no longer fits
(`column_y_pos + logical_rect.height >= pango_column_height`) or the
previous line was a form-feed line. -/
def must_break (pl : page_layout_t) (c : Cursor) (l : LineLink) : Bool :=
  decide (pango_column_height pl ≤ c.column_y_pos + l.logical_rect.height)
    || c.prev_formfeed

/-- The cursor after the forced break: `column_idx++`,
`column_y_pos = 0`, and when the incremented index reaches
`num_columns` it wraps to 0 and the page index advances (`eject_page`
then `start_page`); otherwise `eject_column` is called. -/
def break_cursor (pl : page_layout_t) (c : Cursor) : Cursor :=
  if c.column_idx + 1 = pl.num_columns then
    ⟨0, 0, c.page_idx + 1, c.prev_formfeed⟩
  else
    ⟨c.column_idx + 1, 0, c.page_idx, c.prev_formfeed⟩

/-- The cursor a line is actually placed with: the incoming cursor,
after the forced break if the break test fired. -/
def place_cursor (pl : page_layout_t) (c : Cursor) (l : LineLink) : Cursor :=
  if must_break pl c l then break_cursor pl c else c

/-- The LPI-derived row height:
`(int)(1.0 / page_layout->lpi * 72.0 * PANGO_SCALE)` (a positive
double truncated to `int`). -/
def lpi_advance (pl : page_layout_t) : Int :=
  Int.floor ((1 : ℚ) / pl.lpi * 72 * (PANGO_SCALE : ℚ))

/-- The `height` used to place a line and advance `column_y_pos`: the
LPI-derived row height when `lpi > 0.0`, else the line's natural
logical height. -/
def line_advance_height (pl : page_layout_t) (l : LineLink) : Int :=
  if 0 < pl.lpi then lpi_advance pl else l.logical_rect.height

/-- Where one line lands: page, column, `column_y_pos` before the line
is placed, and the height by which the cursor then advances
(`draw_line_to_page` receives `column_y_pos + height`). -/
structure Placement where
  page_idx : Nat
  column_idx : Nat
  y_before : Int
  height : Int
deriving DecidableEq, Repr

/-- The placement of one line from cursor `c`. -/
def line_placement (pl : page_layout_t) (c : Cursor) (l : LineLink) : Placement :=
  let c1 := place_cursor pl c l
  ⟨c1.page_idx, c1.column_idx, c1.column_y_pos, line_advance_height pl l⟩

/-- One full iteration of the `output_pages` loop: break if needed,
place, advance `column_y_pos`, remember the line's `formfeed` flag. -/
def advance_cursor (pl : page_layout_t) (c : Cursor) (l : LineLink) : Cursor :=
  let c1 := place_cursor pl c l
  ⟨c1.column_idx, c1.column_y_pos + line_advance_height pl l, c1.page_idx,
    l.formfeed⟩

/-- The `eject_column` calls one loop iteration makes: exactly one,
with the incremented column index, when the break test fires and the
incremented index has not reached `num_columns`. -/
def eject_calls (pl : page_layout_t) (c : Cursor) (l : LineLink) : List Nat :=
  if must_break pl c l then
    if c.column_idx + 1 = pl.num_columns then [] else [c.column_idx + 1]
  else []

/-- The placements of a line stream starting from cursor `c`. -/
def place_lines (pl : page_layout_t) : Cursor → List LineLink → List Placement
  | _, [] => []
  | c, l :: ls => line_placement pl c l :: place_lines pl (advance_cursor pl c l) ls

/-- All `eject_column` calls issued while flowing a line stream. -/
def eject_list (pl : page_layout_t) : Cursor → List LineLink → List Nat
  | _, [] => []
  | c, l :: ls => eject_calls pl c l ++ eject_list pl (advance_cursor pl c l) ls

/-- The cursor after flowing a line stream. -/
def cursor_after (pl : page_layout_t) (c : Cursor) (ls : List LineLink) : Cursor :=
  ls.foldl (advance_cursor pl) c

/-- What `output_pages` decides: every line's placement, every
`eject_column` call, and the final page index it returns. -/
structure FlowResult where
  placements : List Placement
  eject_columns : List Nat
  final_page : Nat
deriving DecidableEq, Repr

/-- The line-flow engine `output_pages` as a pure function of the
measured-line stream and the layout. -/
def output_pages (pl : page_layout_t) (lines : List LineLink) : FlowResult :=
  ⟨place_lines pl initCursor lines, eject_list pl initCursor lines,
    (cursor_after pl initCursor lines).page_idx⟩

/-- `total_gutter_width` as computed in `main`: zero for a single
column, else `gutter_width * (num_columns - 1)`. -/
def total_gutter_width (num_columns : Nat) (gutter_width : Int) : Int :=
  if num_columns = 1 then 0 else gutter_width * ((num_columns : Int) - 1)

/-- The x coordinate `draw_line_to_page` moves to before showing a
line: LTR places column `i` at `left_margin + i*(column_width +
gutter_width)`; RTL mirrors the column (`num_columns - 1 - i`) and
right-aligns the line inside it by its measured logical width
(integer-divided back to points). -/
def draw_line_x (pl : page_layout_t) (column_idx : Nat) (line_width : Int) : Int :=
  if pl.pango_dir = PangoDirection.rtl then
    pl.left_margin
      + ((pl.num_columns : Int) - 1 - (column_idx : Int))
        * (pl.column_width + pl.gutter_width)
      + (pl.column_width - line_width / PANGO_SCALE)
  else
    pl.left_margin + (column_idx : Int) * (pl.column_width + pl.gutter_width)

/-- The x coordinate of the separator rule `eject_column` strokes (the
separator is only drawn when `do_separation_line` is set): the column
index is mirrored to `num_columns - column_idx` in RTL mode, and the
gutter contribution is half a gutter on the first boundary, else
`(column_idx - 0.5)` gutters. -/
def eject_column_x (pl : page_layout_t) (column_idx : Nat) : ℚ :=
  let ci : Int :=
    if pl.pango_dir = PangoDirection.rtl then
      (pl.num_columns : Int) - (column_idx : Int)
    else (column_idx : Int)
  let total_gutter : ℚ :=
    if ci = 1 then (pl.gutter_width : ℚ) / 2
    else ((ci : ℚ) - 1 / 2) * (pl.gutter_width : ℚ)
  (pl.left_margin : ℚ) + (pl.column_width : ℚ) * (ci : ℚ) + total_gutter

/-- Total `wcwidth` cells of a list of width values, counting only the
non-negative ones (exactly what the truncation loop accumulates). -/
def cellSum (ws : List Int) : Nat := (ws.map Int.toNat).sum

/-- Cell count of a text span under the fixed-pitch approximation. -/
def cellCount (t : List Ch) : Nat := cellSum (t.map chWidth)

/-- A baseline configuration used by the concrete scenarios: A4-ish
portrait page, two 360pt-wide columns of 100pt height, no LPI/CPI, no
markup, left-to-right. -/
def basePL : page_layout_t where
  column_width := 360
  column_height := 100
  num_columns := 2
  gutter_width := 40
  top_margin := 36
  bottom_margin := 36
  left_margin := 36
  right_margin := 36
  page_height := 842
  header_sep := 0
  header_height := 0
  footer_height := 0
  scale_y := 1
  do_separation_line := true
  do_wordwrap := true
  do_use_markup := false
  do_stretch_chars := false
  pango_dir := PangoDirection.ltr
  lpi := 0
  cpi := 0
  cups_mode := false

/-- CPI scenario configuration: `cpi = 10`, `column_width = 360`. -/
def cpiPL : page_layout_t := { basePL with cpi := 10 }

/-- A 120-cell paragraph of width-1 characters with no natural break,
terminated by the newline `read_file` guarantees. -/
def text120 : List Ch := List.replicate 120 (Ch.pr 1) ++ [Ch.nl]

/-- Thirty double-width characters (60 cells, 30 characters). -/
def text30 : List Ch := List.replicate 30 (Ch.pr 2) ++ [Ch.nl]

/-- Plain text with an invalid sequence in the middle. -/
def textInvalid : List Ch := [Ch.pr 1, Ch.invalid, Ch.pr 7, Ch.nl]

/-- A 10pt-high, 100pt-wide measured line (Pango units). -/
def line10 : LineLink := ⟨⟨102400, 10240⟩, ⟨102400, 10240⟩, false⟩

/-- A 14pt-high measured line. -/
def line14 : LineLink := ⟨⟨102400, 14336⟩, ⟨102400, 14336⟩, false⟩

/-- A form-feed terminated measured paragraph of two 10pt lines. -/
def ffPara : MeasuredPara :=
  ⟨[(⟨102400, 10240⟩, ⟨102400, 10240⟩), (⟨102400, 10240⟩, ⟨102400, 10240⟩)], true⟩

/-- A one-line measured paragraph without a form feed. -/
def plainPara : MeasuredPara := ⟨[(⟨102400, 10240⟩, ⟨102400, 10240⟩)], false⟩

/-- Single-column right-to-left configuration (for the C6 analysis). -/
def rtl1PL : page_layout_t :=
  { basePL with num_columns := 1, pango_dir := PangoDirection.rtl,
                left_margin := 10, column_width := 100, gutter_width := 7 }

/-- A 50pt-wide, 10pt-high measured line. -/
def line50w : LineLink := ⟨⟨51200, 10240⟩, ⟨51200, 10240⟩, false⟩

/-- Three-column right-to-left configuration (for the C7 scenario). -/
def rtl3PL : page_layout_t :=
  { basePL with num_columns := 3, pango_dir := PangoDirection.rtl }

/-- Stretch scenario configuration: `lpi = 6`, `stretch_characters`. -/
def lpi6PL : page_layout_t := { basePL with lpi := 6, do_stretch_chars := true }

/-- The measured paragraph of the stretch scenario: two lines of
natural heights 10pt and 14pt. -/
def stretchPara : MeasuredPara :=
  ⟨[(⟨102400, 10240⟩, ⟨102400, 10240⟩), (⟨102400, 14336⟩, ⟨102400, 14336⟩)], false⟩

set_option maxRecDepth 400000

/-! ## Helper lemmas -/

/-- Indexing into the placement list: line `i` is placed from the
cursor reached after flowing the first `i` lines. -/
theorem place_lines_get (pl : page_layout_t) (ls : List LineLink) :
    ∀ (c : Cursor) (i : Nat),
      (place_lines pl c ls).get? i =
        (ls.get? i).map (fun l => line_placement pl (cursor_after pl c (ls.take i)) l) := by
  induction ls with
  | nil => intro c i; simp [place_lines]
  | cons l ls ih =>
    intro c i
    cases i with
    | zero => simp [place_lines, cursor_after]
    | succ i =>
      simp only [place_lines, List.get?_cons_succ, List.take_succ_cons]
      rw [ih]
      simp [cursor_after]

/-- Flowing one more line folds `advance_cursor` once more. -/
theorem cursor_after_take_succ (pl : page_layout_t) (c : Cursor)
    (ls : List LineLink) (i : Nat) (l : LineLink) (h : ls.get? i = some l) :
    cursor_after pl c (ls.take (i + 1)) =
      advance_cursor pl (cursor_after pl c (ls.take i)) l := by
  have h' : ls[i]? = some l := by rw [← List.get?_eq_getElem?]; exact h
  rw [List.take_succ, h']
  simp [cursor_after]

/-- `advance_cursor`, with the intermediate cursor spelled out. -/
theorem advance_cursor_eq (pl : page_layout_t) (c : Cursor) (l : LineLink) :
    advance_cursor pl c l =
      ⟨(place_cursor pl c l).column_idx,
        (place_cursor pl c l).column_y_pos + line_advance_height pl l,
        (place_cursor pl c l).page_idx, l.formfeed⟩ := rfl

/-- `line_placement`, with the intermediate cursor spelled out. -/
theorem line_placement_eq (pl : page_layout_t) (c : Cursor) (l : LineLink) :
    line_placement pl c l =
      ⟨(place_cursor pl c l).page_idx, (place_cursor pl c l).column_idx,
        (place_cursor pl c l).column_y_pos, line_advance_height pl l⟩ := rfl

/-- After a line with the `formfeed` flag, the next placement always
starts a fresh column (offset 0), advancing the column index, and
rolling over to a fresh page when the incremented index reaches
`num_columns` — independently of the vertical space remaining. -/
theorem break_after_formfeed (pl : page_layout_t) (c : Cursor)
    (l l' : LineLink) (h : l.formfeed = true) :
    (line_placement pl (advance_cursor pl c l) l').y_before = 0 ∧
    (if (line_placement pl c l).column_idx + 1 = pl.num_columns then
      (line_placement pl (advance_cursor pl c l) l').page_idx =
          (line_placement pl c l).page_idx + 1 ∧
        (line_placement pl (advance_cursor pl c l) l').column_idx = 0
    else
      (line_placement pl (advance_cursor pl c l) l').page_idx =
          (line_placement pl c l).page_idx ∧
        (line_placement pl (advance_cursor pl c l) l').column_idx =
          (line_placement pl c l).column_idx + 1) := by
  have hb : must_break pl (advance_cursor pl c l) l' = true := by
    rw [advance_cursor_eq]
    simp [must_break, h]
  have hplace : place_cursor pl (advance_cursor pl c l) l' =
      break_cursor pl (advance_cursor pl c l) := by
    simp [place_cursor, hb]
  rw [line_placement_eq pl (advance_cursor pl c l) l', hplace,
    line_placement_eq pl c l, advance_cursor_eq]
  unfold break_cursor
  by_cases hcol : (place_cursor pl c l).column_idx + 1 = pl.num_columns
  · simp [hcol]
  · simp [hcol]

/-- The `formfeed` flags of one measured paragraph's line links, as a
function of the line index. -/
theorem linesOfPara_formfeed_map (para : MeasuredPara) :
    (linesOfPara para).map (fun l => l.formfeed) =
      (List.range para.line_extents.length).map
        (fun i => para.formfeed && decide (i = para.line_extents.length - 1)) := by
  unfold linesOfPara
  rw [List.map_map, ← List.enum_map_fst para.line_extents, List.map_map]
  rfl

/-- Mapping the is-last-index test over `range (m+1)`. -/
theorem range_map_last_flag (m : Nat) :
    (List.range (m + 1)).map (fun i => decide (i = m)) =
      List.replicate m false ++ [true] := by
  rw [List.range_succ, List.map_append]
  congr 1
  · apply List.eq_replicate_iff.2
    refine ⟨by simp, ?_⟩
    intro b hb
    simp only [List.mem_map, List.mem_range] at hb
    obtain ⟨i, hi, rfl⟩ := hb
    simp [Nat.ne_of_lt hi]
  · simp

/-- The truncation loop keeps a prefix whose cells fit in the budget,
and stops exactly when one more character would overflow it. -/
theorem truncGo_spec (col : Nat) (ws : List Int) :
    ∀ ww : Nat, ww ≤ col → (∀ w ∈ ws, 0 ≤ w) →
      ww + cellSum (ws.take (truncGo col ww ws)) ≤ col ∧
      (truncGo col ww ws < ws.length →
        col < ww + cellSum (ws.take (truncGo col ww ws + 1))) := by
  induction ws with
  | nil =>
    intro ww h _
    refine ⟨by simpa [truncGo, cellSum], ?_⟩
    intro hlt
    simp [truncGo] at hlt
  | cons w ws ih =>
    intro ww h hnn
    have hw : 0 ≤ w := hnn w (List.mem_cons_self _ _)
    simp only [truncGo, if_pos hw]
    by_cases hover : col < ww + w.toNat
    · rw [if_pos hover]
      exact ⟨by simpa [cellSum], fun _ => by simpa [cellSum] using hover⟩
    · rw [if_neg hover]
      push_neg at hover
      obtain ⟨h1, h2⟩ :=
        ih (ww + w.toNat) hover (fun x hx => hnn x (List.mem_cons_of_mem _ hx))
      refine ⟨?_, ?_⟩
      · simpa [cellSum, Nat.add_assoc] using h1
      · intro hlt
        have := h2 (Nat.lt_of_succ_lt_succ hlt)
        simpa [cellSum, Nat.add_assoc] using this

/-- Prefix cell sums never exceed the cell sum of the whole list. -/
theorem cellSum_take_le (l : List Int) (a : Nat) :
    cellSum (l.take a) ≤ cellSum l := by
  have htake : ∀ (m : List Nat) (b : Nat), (m.take b).sum ≤ m.sum := by
    intro m b
    conv_rhs => rw [← List.take_append_drop b m]
    rw [List.sum_append]
    exact Nat.le_add_right _ _
  unfold cellSum
  rw [List.map_take]
  exact htake _ a

/-- `truncCount` keeps the longest budget-respecting number of
characters: any longer prefix that still fits is bounded by it. -/
theorem truncCount_longest (col : Nat) (ws : List Int)
    (hnn : ∀ w ∈ ws, 0 ≤ w) :
    cellSum (ws.take (truncCount col ws)) ≤ col ∧
    (truncCount col ws < ws.length →
      col < cellSum (ws.take (truncCount col ws + 1))) ∧
    (∀ m ≤ ws.length, cellSum (ws.take m) ≤ col → m ≤ truncCount col ws) := by
  obtain ⟨h1, h2⟩ := truncGo_spec col ws 0 (Nat.zero_le _) hnn
  rw [Nat.zero_add] at h1 h2
  refine ⟨h1, h2, ?_⟩
  intro m hm hfit
  by_contra hgt
  push_neg at hgt
  have hlt : truncCount col ws < ws.length := Nat.lt_of_lt_of_le hgt hm
  have hle : cellSum (ws.take (truncCount col ws + 1)) ≤ cellSum (ws.take m) := by
    have : ws.take (truncCount col ws + 1) = (ws.take m).take (truncCount col ws + 1) := by
      rw [List.take_take, Nat.min_eq_left hgt]
    rw [this]
    exact cellSum_take_le _ _
  exact absurd hfit (Nat.not_le_of_lt (Nat.lt_of_lt_of_le (h2 hlt) hle))

/-- In a single-column layout, every break rolls over to a new page, so
the column index stays 0 and `eject_column` is never called. -/
theorem place_lines_single_column (pl : page_layout_t)
    (hcol : pl.num_columns = 1) (ls : List LineLink) :
    ∀ c : Cursor, c.column_idx = 0 →
      (∀ p ∈ place_lines pl c ls, p.column_idx = 0) ∧ eject_list pl c ls = [] := by
  induction ls with
  | nil => intro c _; simp [place_lines, eject_list]
  | cons l ls ih =>
    intro c hc
    have hbreak : break_cursor pl c = ⟨0, 0, c.page_idx + 1, c.prev_formfeed⟩ := by
      unfold break_cursor
      rw [if_pos (by rw [hc, hcol])]
    have hpc : (place_cursor pl c l).column_idx = 0 := by
      unfold place_cursor
      by_cases hb : must_break pl c l
      · rw [if_pos hb, hbreak]
      · rw [if_neg hb]; exact hc
    have hadv : (advance_cursor pl c l).column_idx = 0 := by
      rw [advance_cursor_eq]; exact hpc
    obtain ⟨ihp, ihe⟩ := ih (advance_cursor pl c l) hadv
    refine ⟨?_, ?_⟩
    · intro p hp
      rcases List.mem_cons.1 hp with hp | hp
      · rw [hp, line_placement_eq]; exact hpc
      · exact ihp p hp
    · show eject_calls pl c l ++ eject_list pl (advance_cursor pl c l) ls = []
      rw [ihe, List.append_nil]
      unfold eject_calls
      by_cases hb : must_break pl c l
      · rw [if_pos hb, if_pos (by rw [hc, hcol])]
      · rw [if_neg hb]

/-! ## The claims -/

/-- C5: a line whose natural logical height exactly fills the
remaining column space (`column_y_pos + height == pango_column_height`)
still triggers a break before it is placed — the overflow comparison is
`>=`, not `>` — so an exact fit breaks to a new column or page and the
line is placed at offset 0 of the fresh column. -/
theorem exact_fit_breaks (pl : page_layout_t) (c : Cursor) (l : LineLink)
    (h : c.column_y_pos + l.logical_rect.height = pango_column_height pl) :
    must_break pl c l = true ∧
    place_cursor pl c l = break_cursor pl c ∧
    (line_placement pl c l).y_before = 0 := by
  have hle : pango_column_height pl ≤ c.column_y_pos + l.logical_rect.height :=
    le_of_eq h.symm
  have hmb : must_break pl c l = true := by simp [must_break, hle]
  refine ⟨hmb, by simp [place_cursor, hmb], ?_⟩
  rw [line_placement_eq]
  show (place_cursor pl c l).column_y_pos = 0
  rw [place_cursor, if_pos hmb]
  unfold break_cursor
  by_cases hn : c.column_idx + 1 = pl.num_columns
  · rw [if_pos hn]
  · rw [if_neg hn]

/-- Witness for `exact_fit_breaks`: a 10pt line meeting a column with
exactly 10pt of its 100pt left. -/
theorem exact_fit_breaks_witness :
    must_break basePL ⟨0, 92160, 1, false⟩ line10 = true ∧
    place_cursor basePL ⟨0, 92160, 1, false⟩ line10 =
      break_cursor basePL ⟨0, 92160, 1, false⟩ ∧
    (line_placement basePL ⟨0, 92160, 1, false⟩ line10).y_before = 0 :=
  exact_fit_breaks basePL ⟨0, 92160, 1, false⟩ line10 (by decide)

/-- C3: when `lines_per_inch > 0` the overflow test still compares the
line's *natural* logical height against the column height (it is the
same test as with `lpi` unset), while the height by which the cursor
advances after placing the line is the LPI-derived
`(int)(1.0/lpi * 72.0 * PANGO_SCALE)`, independent of the line — the
break decision and the advance deliberately use different heights. -/
theorem lpi_break_vs_advance (pl : page_layout_t) (hlpi : 0 < pl.lpi) :
    (∀ (c : Cursor) (l : LineLink),
      must_break pl c l =
        (decide (pango_column_height pl ≤ c.column_y_pos + l.logical_rect.height)
          || c.prev_formfeed)) ∧
    (∀ (c : Cursor) (l : LineLink),
      must_break { pl with lpi := 0 } c l = must_break pl c l) ∧
    (∀ l : LineLink,
      line_advance_height pl l =
        Int.floor ((1 : ℚ) / pl.lpi * 72 * (PANGO_SCALE : ℚ))) ∧
    (∀ (c : Cursor) (l : LineLink),
      (advance_cursor pl c l).column_y_pos =
        (line_placement pl c l).y_before +
          Int.floor ((1 : ℚ) / pl.lpi * 72 * (PANGO_SCALE : ℚ))) := by
  have hadv : ∀ l : LineLink,
      line_advance_height pl l =
        Int.floor ((1 : ℚ) / pl.lpi * 72 * (PANGO_SCALE : ℚ)) := by
    intro l
    unfold line_advance_height lpi_advance
    rw [if_pos hlpi]
  refine ⟨fun c l => rfl, fun c l => rfl, hadv, ?_⟩
  intro c l
  rw [advance_cursor_eq, line_placement_eq, hadv l]

/-- Witness for `lpi_break_vs_advance` at `lpi = 6`: the advance is
`⌊1/6 * 72 * 1024⌋ = 12288` Pango units (12pt), both for a 10pt and a
14pt line, while the break test still sees the natural heights. -/
theorem lpi_break_vs_advance_witness :
    line_advance_height lpi6PL line10 = 12288 ∧
    line_advance_height lpi6PL line14 = 12288 := by
  have h := (lpi_break_vs_advance lpi6PL (by norm_num [lpi6PL, basePL])).2.2.1
  rw [h line10, h line14]
  have hl : lpi6PL.lpi = 6 := rfl
  rw [hl]
  norm_num [PANGO_SCALE]

/-- C9: the line-flow engine is deterministic — the page, column, and
vertical-offset assignment (and the `eject_column` calls and final
page index) is a pure function of the measured-line stream and the
layout configuration; two runs over equal inputs agree. -/
theorem output_pages_deterministic (pl₁ pl₂ : page_layout_t)
    (ls₁ ls₂ : List LineLink) (hpl : pl₁ = pl₂) (hls : ls₁ = ls₂) :
    output_pages pl₁ ls₁ = output_pages pl₂ ls₂ := by
  rw [hpl, hls]

/-- Witness for `output_pages_deterministic` on a concrete stream. -/
theorem output_pages_deterministic_witness :
    output_pages basePL [line10, line14] = output_pages basePL [line10, line14] :=
  output_pages_deterministic basePL basePL [line10, line14] [line10, line14] rfl rfl

/-- C10: for non-empty input, `read_file` returns a buffer ending in a
newline: the buffer is returned unchanged when it already ends in
`'\n'` and gets one appended otherwise, so the final run of text is
always newline-terminated. -/
theorem read_file_trailing_newline (content : List Ch) (_h : content ≠ []) :
    (read_file content).getLast? = some Ch.nl ∧
    (content.getLast? = some Ch.nl → read_file content = content) ∧
    (content.getLast? ≠ some Ch.nl → read_file content = content ++ [Ch.nl]) := by
  by_cases hl : content.getLast? = some Ch.nl
  · rw [read_file, if_pos hl]
    exact ⟨hl, fun _ => rfl, fun hc => absurd hl hc⟩
  · rw [read_file, if_neg hl]
    refine ⟨?_, fun hc => absurd hc hl, fun _ => rfl⟩
    exact List.getLast?_concat _

/-- Witness for `read_file_trailing_newline`: a buffer not ending in a
newline gets one appended. -/
theorem read_file_trailing_newline_witness :
    read_file [Ch.pr 1] = [Ch.pr 1] ++ [Ch.nl] :=
  (read_file_trailing_newline [Ch.pr 1] (by decide)).2.2 (by decide)

/-- C1: a form-feed-terminated paragraph gets the `formfeed` flag on
exactly its last measured line, and the line that follows it in the
output stream is always placed at offset 0 of a fresh column — the
column index advances, rolling over to a new page when it reaches
`num_columns` — regardless of the vertical space remaining. -/
theorem formfeed_paragraph_breaks (pl : page_layout_t)
    (paras : List MeasuredPara) (para : MeasuredPara)
    (_hmem : para ∈ paras) (hff : para.formfeed = true)
    (hne : para.line_extents ≠ []) :
    ((linesOfPara para).map (fun l => l.formfeed) =
      List.replicate (para.line_extents.length - 1) false ++ [true]) ∧
    (∀ (i : Nat) (l : LineLink) (p p' : Placement),
      (split_paragraphs_into_lines paras).get? i = some l →
      l.formfeed = true →
      (output_pages pl (split_paragraphs_into_lines paras)).placements.get? i
          = some p →
      (output_pages pl (split_paragraphs_into_lines paras)).placements.get? (i + 1)
          = some p' →
      p'.y_before = 0 ∧
      (if p.column_idx + 1 = pl.num_columns then
        p'.page_idx = p.page_idx + 1 ∧ p'.column_idx = 0
      else
        p'.page_idx = p.page_idx ∧ p'.column_idx = p.column_idx + 1)) := by
  constructor
  · rw [linesOfPara_formfeed_map, hff]
    have hpos : 0 < para.line_extents.length := List.length_pos.2 hne
    obtain ⟨m, hm⟩ := Nat.exists_eq_succ_of_ne_zero (Nat.pos_iff_ne_zero.1 hpos)
    rw [hm]
    simp only [Nat.add_sub_cancel, Bool.true_and]
    exact range_map_last_flag m
  · intro i l p p' hl hlf hp hp'
    have hout : (output_pages pl (split_paragraphs_into_lines paras)).placements =
        place_lines pl initCursor (split_paragraphs_into_lines paras) := rfl
    rw [hout, place_lines_get, hl] at hp
    rw [hout, place_lines_get] at hp'
    simp only [Option.map_some'] at hp
    cases hl' : (split_paragraphs_into_lines paras).get? (i + 1) with
    | none => rw [hl'] at hp'; simp at hp'
    | some l' =>
      rw [hl'] at hp'
      simp only [Option.map_some'] at hp'
      rw [cursor_after_take_succ pl initCursor _ i l hl] at hp'
      rw [← Option.some.inj hp, ← Option.some.inj hp']
      exact break_after_formfeed pl
        (cursor_after pl initCursor ((split_paragraphs_into_lines paras).take i))
        l l' hlf

/-- Witness for `formfeed_paragraph_breaks`: a two-line form-feed
paragraph followed by a plain one-line paragraph in a two-column
layout; the line after the form-feed line starts column 1 of the same
page at offset 0 even though plenty of room remained. -/
theorem formfeed_paragraph_breaks_witness :
    ((linesOfPara ffPara).map (fun l => l.formfeed) =
      List.replicate (ffPara.line_extents.length - 1) false ++ [true]) ∧
    ((⟨1, 1, 0, 10240⟩ : Placement).y_before = 0 ∧
      (if (⟨1, 0, 10240, 10240⟩ : Placement).column_idx + 1 = basePL.num_columns then
        (⟨1, 1, 0, 10240⟩ : Placement).page_idx =
            (⟨1, 0, 10240, 10240⟩ : Placement).page_idx + 1 ∧
          (⟨1, 1, 0, 10240⟩ : Placement).column_idx = 0
      else
        (⟨1, 1, 0, 10240⟩ : Placement).page_idx =
            (⟨1, 0, 10240, 10240⟩ : Placement).page_idx ∧
          (⟨1, 1, 0, 10240⟩ : Placement).column_idx =
            (⟨1, 0, 10240, 10240⟩ : Placement).column_idx + 1)) := by
  have h := formfeed_paragraph_breaks basePL [ffPara, plainPara] ffPara
    (by simp) rfl (by decide)
  exact ⟨h.1,
    h.2 1 ⟨⟨102400, 10240⟩, ⟨102400, 10240⟩, true⟩ ⟨1, 0, 10240, 10240⟩
      ⟨1, 1, 0, 10240⟩ (by decide) rfl (by decide) (by decide)⟩

/-- C6 counterexample: a single-column right-to-left configuration
with `left_margin = 10` and `column_width = 100` places its only line
(50pt wide) at x = 60, not at `left_margin` — the line is right-aligned
inside the single column, so the claim that with `columns = 1` every
line's x position is exactly `left_margin` is false. -/
theorem single_column_x_counterexample :
    rtl1PL.num_columns = 1 ∧
    (output_pages rtl1PL [line50w]).placements = [⟨1, 0, 0, 10240⟩] ∧
    draw_line_x rtl1PL 0 line50w.logical_rect.width = 60 ∧
    rtl1PL.left_margin = 10 ∧ (60 : Int) ≠ 10 := by decide

/-- C6 (amended): with `columns = 1` the gutter contributes no
horizontal offset (`total_gutter_width = 0`, and in left-to-right mode
every line's x position is exactly `left_margin`, while in
right-to-left mode the line is right-aligned inside the single
column), every placed line is in column 0, and the column separator is
never drawn because every forced break is a page break
(`eject_column` is never reached). -/
theorem single_column_no_separator (pl : page_layout_t)
    (hcol : pl.num_columns = 1) :
    total_gutter_width pl.num_columns pl.gutter_width = 0 ∧
    (∀ (lines : List LineLink) (p : Placement),
      p ∈ (output_pages pl lines).placements → p.column_idx = 0) ∧
    (∀ lines : List LineLink, (output_pages pl lines).eject_columns = []) ∧
    (pl.pango_dir = PangoDirection.ltr →
      ∀ w : Int, draw_line_x pl 0 w = pl.left_margin) ∧
    (pl.pango_dir = PangoDirection.rtl →
      ∀ w : Int, draw_line_x pl 0 w =
        pl.left_margin + (pl.column_width - w / PANGO_SCALE)) := by
  refine ⟨?_, ?_, ?_, ?_, ?_⟩
  · rw [total_gutter_width, if_pos hcol]
  · intro lines p hp
    exact (place_lines_single_column pl hcol lines initCursor rfl).1 p hp
  · intro lines
    exact (place_lines_single_column pl hcol lines initCursor rfl).2
  · intro hdir w
    rw [draw_line_x, if_neg (by simp [hdir])]
    simp
  · intro hdir w
    rw [draw_line_x, if_pos hdir, hcol]
    norm_num

/-- Witness for `single_column_no_separator` on the single-column RTL
configuration and a one-line stream. -/
theorem single_column_no_separator_witness :
    total_gutter_width rtl1PL.num_columns rtl1PL.gutter_width = 0 ∧
    (output_pages rtl1PL [line50w]).eject_columns = [] ∧
    draw_line_x rtl1PL 0 51200 =
      rtl1PL.left_margin + (rtl1PL.column_width - 51200 / PANGO_SCALE) := by
  have h := single_column_no_separator rtl1PL rfl
  exact ⟨h.1, h.2.2.1 [line50w], h.2.2.2.2 rfl 51200⟩

/-- C7: left-to-right lines in column `i` sit at
`left_margin + i*(column_width + gutter_width)`; right-to-left lines
are mirrored to column `num_columns - 1 - i` and right-aligned within
it by their measured width; with three right-to-left columns, logical
column 0 is the rightmost physical position; and the separator of
`eject_column` is drawn with the mirrored index `num_columns - i` in
RTL mode (the same geometry an LTR layout would use for that index). -/
theorem rtl_column_mirroring (pl : page_layout_t) :
    (pl.pango_dir = PangoDirection.ltr → ∀ (i : Nat) (w : Int),
      draw_line_x pl i w =
        pl.left_margin + (i : Int) * (pl.column_width + pl.gutter_width)) ∧
    (pl.pango_dir = PangoDirection.rtl → ∀ (i : Nat) (w : Int),
      draw_line_x pl i w =
        pl.left_margin
          + ((pl.num_columns : Int) - 1 - (i : Int))
            * (pl.column_width + pl.gutter_width)
          + (pl.column_width - w / PANGO_SCALE)) ∧
    (pl.pango_dir = PangoDirection.rtl → pl.num_columns = 3 →
      0 < pl.column_width + pl.gutter_width → ∀ w : Int,
      draw_line_x pl 1 w < draw_line_x pl 0 w ∧
      draw_line_x pl 2 w < draw_line_x pl 0 w) ∧
    (pl.pango_dir = PangoDirection.rtl → ∀ i : Nat, i ≤ pl.num_columns →
      eject_column_x pl i =
        eject_column_x { pl with pango_dir := PangoDirection.ltr }
          (pl.num_columns - i)) := by
  refine ⟨?_, ?_, ?_, ?_⟩
  · intro hdir i w
    rw [draw_line_x, if_neg (by simp [hdir])]
  · intro hdir i w
    rw [draw_line_x, if_pos hdir]
  · intro hdir hn hpos w
    have hx : ∀ i : Nat, draw_line_x pl i w =
        pl.left_margin
          + ((3 : Int) - 1 - (i : Int)) * (pl.column_width + pl.gutter_width)
          + (pl.column_width - w / PANGO_SCALE) := by
      intro i
      rw [draw_line_x, if_pos hdir, hn]
      norm_num
    constructor
    · rw [hx 0, hx 1]
      push_cast
      linarith
    · rw [hx 0, hx 2]
      push_cast
      linarith
  · intro hdir i hi
    have hcast : ((pl.num_columns - i : Nat) : Int) =
        (pl.num_columns : Int) - (i : Int) := by
      exact_mod_cast Int.ofNat_sub hi
    simp [eject_column_x, hdir, hcast]

/-- Witness for `rtl_column_mirroring` on the three-column RTL
configuration: logical column 0 is to the right of logical column 1,
and the separator for incremented index 2 uses the mirrored LTR
geometry for index 1. -/
theorem rtl_column_mirroring_witness :
    draw_line_x rtl3PL 1 0 < draw_line_x rtl3PL 0 0 ∧
    eject_column_x rtl3PL 2 =
      eject_column_x { rtl3PL with pango_dir := PangoDirection.ltr }
        (rtl3PL.num_columns - 2) := by
  have h := rtl_column_mirroring rtl3PL
  exact ⟨(h.2.2.1 rfl rfl (by decide) 0).1, h.2.2.2 rfl 2 (by decide)⟩

/-- C8: when `stretch_characters` is set and `lpi > 0`, the single
vertical scale factor computed by the measuring pre-pass (before any
line is placed) equals `(72/lpi)` points divided by the maximum
natural line height (in points) over the entire stream, and the
per-line vertical advance is the LPI row height for every line,
independent of natural heights. -/
theorem stretch_scale_uniform (pl : page_layout_t)
    (paras : List MeasuredPara) (hs : pl.do_stretch_chars = true)
    (hlpi : 0 < pl.lpi) (hmax : 0 < max_line_height paras) :
    split_scale_y pl paras =
      (72 / pl.lpi) / ((max_line_height paras : ℚ) / (PANGO_SCALE : ℚ)) ∧
    (∀ l : LineLink, line_advance_height pl l = lpi_advance pl) := by
  constructor
  · rw [split_scale_y, if_pos (by rw [hs]; simp [hlpi])]
    have hm : ((max_line_height paras : Int) : ℚ) ≠ 0 :=
      Int.cast_ne_zero.2 (ne_of_gt hmax)
    have hl : pl.lpi ≠ 0 := ne_of_gt hlpi
    rw [PANGO_SCALE]
    push_cast
    field_simp
  · intro l
    rw [line_advance_height, if_pos hlpi]

/-- Witness for `stretch_scale_uniform` on the `lpi = 6` scenario with
natural heights 10pt and 14pt: the scale is `(72/6)/14 = 6/7` and the
advance is 12288 Pango units (12pt) for both lines. -/
theorem stretch_scale_uniform_witness :
    split_scale_y lpi6PL [stretchPara] = 6 / 7 ∧
    line_advance_height lpi6PL line10 = 12288 ∧
    line_advance_height lpi6PL line14 = 12288 := by
  have hmax : max_line_height [stretchPara] = 14336 := by decide
  have hlpi : lpi6PL.lpi = 6 := rfl
  have h := stretch_scale_uniform lpi6PL [stretchPara] rfl
    (by rw [hlpi]; norm_num) (by rw [hmax]; norm_num)
  refine ⟨?_, ?_, ?_⟩
  · rw [h.1, hmax, hlpi, PANGO_SCALE]
    norm_num
  · rw [h.2 line10, lpi_advance, hlpi, PANGO_SCALE]
    norm_num
  · rw [h.2 line14, lpi_advance, hlpi, PANGO_SCALE]
    norm_num

/-- C2 counterexample: the truncation trigger compares the paragraph's
*character count* (`g_utf8_strlen`), not its cell count, against the
budget.  Thirty double-width characters are 60 cells — over the
50-cell budget — yet 30 ≤ 50, so the paragraph is handed over whole:
the output contains an untruncated paragraph whose cell count exceeds
the budget, contradicting the claim. -/
theorem cpi_cellcount_counterexample :
    cpiBudget cpiPL = 50 ∧
    split_text_into_paragraphs cpiPL text30 =
      some [⟨List.replicate 30 (Ch.pr 2), false⟩] ∧
    cellCount (List.replicate 30 (Ch.pr 2)) = 60 := by
  have hb : cpiBudget cpiPL = 50 := by
    have h1 : cpiPL.column_width = 360 := rfl
    have h2 : cpiPL.cpi = 10 := rfl
    rw [cpiBudget, h1, h2]
    norm_num
    decide
  refine ⟨hb, ?_, by decide⟩
  rw [split_text_into_paragraphs, if_neg (by decide), hb]
  decide

/-- C2 (amended): with `cpi > 0` and word-wrap enabled the budget is
`floor(column_width / 72 * cpi)` cells, and every paragraph whose
*character count* exceeds the budget is truncated to the longest
prefix whose cumulative non-negative `wcwidth` cell widths do not
exceed the budget, the remainder being re-scanned as a new paragraph
from the truncation point; in the concrete scenario (`cpi = 10`,
`column_width = 360pt`, 120 width-1 cells with no natural break) this
yields exactly three fragments of 50, 50, and 20 cells, none over the
50-cell budget. -/
theorem cpi_truncation_rewrap :
    (∀ (col : Nat) (ws : List Int), (∀ w ∈ ws, 0 ≤ w) →
      cellSum (ws.take (truncCount col ws)) ≤ col ∧
      (truncCount col ws < ws.length →
        col < cellSum (ws.take (truncCount col ws + 1))) ∧
      (∀ m ≤ ws.length, cellSum (ws.take m) ≤ col → m ≤ truncCount col ws)) ∧
    (∀ (cups : Bool) (col fuel : Nat) (acc rest : List Ch),
      col < acc.length → truncCount col (acc.map chWidth) ≠ 0 →
      scanParas cups true col (fuel + 1) acc (Ch.nl :: rest) =
        (scanParas cups true col fuel []
            (acc.drop (truncCount col (acc.map chWidth)) ++ Ch.nl :: rest)).map
          (fun r =>
            ⟨acc.take (truncCount col (acc.map chWidth)),
              decide (acc.get? (truncCount col (acc.map chWidth) - 1)
                = some Ch.ff)⟩ :: r)) ∧
    cpiBudget cpiPL = 50 ∧
    split_text_into_paragraphs cpiPL text120 =
      some [⟨List.replicate 50 (Ch.pr 1), false⟩,
            ⟨List.replicate 50 (Ch.pr 1), false⟩,
            ⟨List.replicate 20 (Ch.pr 1), false⟩] ∧
    (∀ P ∈ [(⟨List.replicate 50 (Ch.pr 1), false⟩ : Para),
            ⟨List.replicate 50 (Ch.pr 1), false⟩,
            ⟨List.replicate 20 (Ch.pr 1), false⟩], cellCount P.text ≤ 50) := by
  have hb : cpiBudget cpiPL = 50 := by
    have h1 : cpiPL.column_width = 360 := rfl
    have h2 : cpiPL.cpi = 10 := rfl
    rw [cpiBudget, h1, h2]
    norm_num
    decide
  refine ⟨truncCount_longest, ?_, hb, ?_, by decide⟩
  · intro cups col fuel acc rest hlen hi
    simp [scanParas, hlen, hi]
  · rw [split_text_into_paragraphs, if_neg (by decide), hb]
    decide

/-- Witness for `cpi_truncation_rewrap`: the truncation of `[1, 1, 1]`
under budget 2 keeps a fitting prefix and is the longest such. -/
theorem cpi_truncation_rewrap_witness :
    cellSum (([1, 1, 1] : List Int).take (truncCount 2 [1, 1, 1])) ≤ 2 ∧
    (2 : Nat) ≤ truncCount 2 [1, 1, 1] := by
  have h := cpi_truncation_rewrap.1 2 [1, 1, 1] (by decide)
  exact ⟨h.1, h.2.2 2 (by decide) (by decide)⟩

/-- C4 counterexample: in plain non-CUPS mode an invalid codepoint
makes the scanner emit the accumulated paragraph and then *halt*
(`wc = 0`, `if (!wc) break`): the buffer `a <invalid> b \n` yields only
the paragraph `a`, and the codepoint after the invalid sequence
appears in no emitted paragraph — the scan does not continue with the
remainder, contradicting the claim. -/
theorem invalid_codepoint_counterexample :
    split_text_into_paragraphs basePL textInvalid = some [⟨[Ch.pr 1], false⟩] ∧
    (∀ out, split_text_into_paragraphs basePL textInvalid = some out →
      ∀ P ∈ out, Ch.pr 7 ∉ P.text) := by
  have h : split_text_into_paragraphs basePL textInvalid =
      some [⟨[Ch.pr 1], false⟩] := by decide
  refine ⟨h, ?_⟩
  intro out hout P hP
  rw [h] at hout
  obtain rfl := Option.some.inj hout
  simp only [List.mem_singleton] at hP
  subst hP
  decide

/-- C4 (amended): in plain mode, when the scanner meets an invalid
codepoint (with CPI rewrap not in effect) it emits the paragraph
accumulated so far as a boundary and then halts — the remainder of the
buffer never influences the result; in CUPS mode the invalid position
is instead skipped without emitting a boundary and scanning
continues. -/
theorem invalid_codepoint_boundary (cpiWrap : Bool) (col fuel : Nat)
    (acc rest : List Ch) :
    (cpiWrap = false →
      scanParas false cpiWrap col (fuel + 1) acc (Ch.invalid :: rest) =
        some [⟨acc, false⟩]) ∧
    scanParas true cpiWrap col (fuel + 1) acc (Ch.invalid :: rest) =
      scanParas true cpiWrap col fuel (acc ++ [Ch.invalid]) rest := by
  constructor
  · intro hw
    subst hw
    simp [scanParas]
  · simp [scanParas]

/-- Witness for `invalid_codepoint_boundary`: the non-CUPS scanner
emits `[a]` and discards everything after the invalid sequence. -/
theorem invalid_codepoint_boundary_witness :
    scanParas false false 0 (5 + 1) [Ch.pr 1] (Ch.invalid :: [Ch.pr 7, Ch.nl]) =
      some [⟨[Ch.pr 1], false⟩] :=
  (invalid_codepoint_boundary false 0 5 [Ch.pr 1] [Ch.pr 7, Ch.nl]).1 rfl
